import Mathlib

/-!
# Verification of the deployment-queue-cli authentication core

A shallow embedding of `src/deployment_queue_cli/auth.py` (credential
store, GitHub identity client, Device Flow / PAT login, organisation
switch) and of the credential-resolution policy of the configuration
layer (`src/deployment_queue_cli/config.py`), together with proofs of
the specified properties.

Modelling conventions:
* Python JSON values are the inductive `Json` (numbers abstracted to
  `Int`; none of the verified properties inspects numeric values).
* The credentials file on disk is `DiskFile`: either absent, or present
  with a content (`FileData`: unparseable text, or a parsed JSON value)
  and a permission mode (a `Nat` holding the usual octal bits).
* Python exceptions are the inductive `PyExc`; a fallible operation
  returns `Except PyExc α`.
* The paginated GitHub organisation listing is a function
  `pages : Nat → List String` giving the logins served on each
  1-indexed page; network calls are total in the model (HTTP transport
  failures are outside the verified properties).
* Python `str.lower()` is modelled by `str_lower` (lower-casing each
  character); the two agree on ASCII data, which is all the verified
  properties use.
-/

/-- A parsed JSON value, as produced by Python's `json.loads`. -/
inductive Json where
  | null : Json
  | bool (b : Bool) : Json
  | num (n : Int) : Json
  | str (s : String) : Json
  | arr (xs : List Json) : Json
  | obj (fields : List (String × Json)) : Json

/-- Content of an existing credentials file: either text that
`json.loads` rejects, or a parsed JSON value. -/
inductive FileData where
  | malformed : FileData
  | parsed (j : Json) : FileData

/-- The on-disk credentials file: `none` when the file does not exist,
otherwise its content together with its permission mode bits. -/
def DiskFile := Option (FileData × Nat)

/-- Python exceptions raised by the authentication module. -/
inductive PyExc where
  | keyError (k : String) : PyExc
  | typeError : PyExc
  | valueError (msg : String) : PyExc
  | timeoutError (msg : String) : PyExc
  | permissionError (msg : String) : PyExc
  | otherError (msg : String) : PyExc

/-- `auth.Credentials`: the stored credentials dataclass.  Python's
dataclass does not enforce field types, so the fields hold arbitrary
JSON values; every value built by the authentication flows wraps
strings with `Json.str`. -/
structure Credentials where
  github_token : Json
  organisation : Json
  username : Json

/-- Python subscript `data[k]` on a parsed JSON value: a `KeyError` on
an object without the key (`json.loads` keeps the last of duplicate
keys, hence the `reverse`), a `TypeError` on any non-object. -/
def jsonGetItem (j : Json) (k : String) : Except PyExc Json :=
  match j with
  | .obj fields =>
      match fields.reverse.lookup k with
      | some v => .ok v
      | none => .error (.keyError k)
  | _ => .error .typeError

/-- `auth.get_stored_credentials` (the credential-store `load`): absent
file gives `none`; the `try` body parses the file and reads the three
fields, and `except (json.JSONDecodeError, KeyError)` turns a parse
failure or a missing key into `none`.  Any other exception (e.g. a
`TypeError` from subscripting a non-object JSON document) propagates. -/
def get_stored_credentials (file : Option FileData) :
    Except PyExc (Option Credentials) :=
  match file with
  | none => .ok none
  | some .malformed => .ok none
  | some (.parsed data) =>
      match jsonGetItem data "github_token" with
      | .error (.keyError _) => .ok none
      | .error e => .error e
      | .ok t =>
          match jsonGetItem data "organisation" with
          | .error (.keyError _) => .ok none
          | .error e => .error e
          | .ok o =>
              match jsonGetItem data "username" with
              | .error (.keyError _) => .ok none
              | .error e => .error e
              | .ok u => .ok (some ⟨t, o, u⟩)

/-- The JSON document `auth.store_credentials` serialises. -/
def credentialsJson (c : Credentials) : Json :=
  .obj [("github_token", c.github_token),
        ("organisation", c.organisation),
        ("username", c.username)]

/-- `auth.store_credentials`: writes the three-field JSON document and
then `chmod 0o600` (owner read/write only). -/
def store_credentials (c : Credentials) (_disk : DiskFile) : DiskFile :=
  some (.parsed (credentialsJson c), 0o600)

/-- The content of the credentials file, as seen by `load`. -/
def fileContent (d : DiskFile) : Option FileData := d.map Prod.fst

/-- The permission mode of the credentials file, when it exists. -/
def fileMode (d : DiskFile) : Option Nat := d.map Prod.snd

/-- `auth.clear_credentials`: delete the file if present. -/
def clear_credentials (_disk : DiskFile) : DiskFile := none

/-- `config.Settings`: values taken from the process environment
(under one naming prefix), `none` when the variable is unset. -/
structure Settings where
  api_url : String
  github_client_id : Option String
  github_token : Option String
  organisation : Option String
  username : Option String
  credentials_file : Option String

/-- Modelled from the spec: the environment tier of credential
resolution (`_get_credentials_from_env`, present in the repository's
test suite but missing from `src/`).  If the environment provides both
a token and an organisation, build a `Credentials` value immediately,
the username defaulting to the fixed placeholder `"env-user"` when not
separately provided; otherwise this tier does not apply. -/
def get_credentials_from_env (s : Settings) : Option Credentials :=
  match s.github_token, s.organisation with
  | some t, some o =>
      some ⟨.str t, .str o, .str (s.username.getD "env-user")⟩
  | _, _ => none

/-- Modelled from the spec: the three-tier credential resolution
(the tiered `get_stored_credentials` exercised by the repository's
test suite but missing from `src/`, whose file tier is
`_get_credentials_from_file`, i.e. the loader embedded above as
`get_stored_credentials`).  Tier 1: environment token+organisation,
checked first, reads no file.  Tier 2: an environment-named
credentials-file path, whose load result is returned without falling
through.  Tier 3: the default file.  `fileAt` gives the content of the
file at each explicit path; `defaultFile` the content at the default
location. -/
def resolve_credentials (s : Settings) (fileAt : String → Option FileData)
    (defaultFile : Option FileData) : Except PyExc (Option Credentials) :=
  match get_credentials_from_env s with
  | some c => .ok (some c)
  | none =>
      match s.credentials_file with
      | some path => get_stored_credentials (fileAt path)
      | none => get_stored_credentials defaultFile

/-- Identity-provider state for one session token, as seen by the
authentication module: the user's login, whether the identity endpoint
accepts the token, and the paginated organisation listing (`pages p` is
the list of organisation logins served on 1-indexed page `p`). -/
structure GithubEnv where
  login : String
  tokenValid : Bool
  pages : Nat → List String

/-- `auth._get_user_info`: the identity endpoint returns the user
record, or rejects the token with `ValueError("Invalid GitHub token")`
on a 401.  The model keeps the `login` field, the only one used. -/
def get_user_info (gh : GithubEnv) : Except PyExc String :=
  if gh.tokenValid then .ok gh.login
  else .error (.valueError "Invalid GitHub token")

/-- The loop body of `auth._get_user_organisations`, together with a
trace of the pages fetched: fetch page `page`; stop on an empty page;
otherwise accumulate the logins (Python `set.update`, modelled by an
order-preserving deduplicating append) and continue, stopping once the
next page number would exceed the 10-page safety limit. -/
def get_user_organisations_aux (pages : Nat → List String) (page : Nat)
    (acc : List String) (fetched : List Nat) : List String × List Nat :=
  let p := pages page
  let fetched' := fetched ++ [page]
  if p = [] then (acc, fetched')
  else
    let acc' := acc ++ p.filter (fun o => ¬ acc.contains o)
    if h : page + 1 > 10 then (acc', fetched')
    else get_user_organisations_aux pages (page + 1) acc' fetched'
termination_by 11 - page
decreasing_by omega

/-- `auth._get_user_organisations` (the spec's `listOrganisations`),
with the trace of fetched page numbers. -/
def get_user_organisations_traced (pages : Nat → List String) :
    List String × List Nat :=
  get_user_organisations_aux pages 1 [] []

/-- `auth._get_user_organisations`: the set of organisation logins, as
the deduplicated list in first-fetch order. -/
def get_user_organisations (pages : Nat → List String) : List String :=
  (get_user_organisations_traced pages).1

/-- Python `str.lower()`: lower-case every character. -/
def str_lower (s : String) : String := ⟨s.data.map Char.toLower⟩

/-- `auth._verify_org_membership` (the spec's `isMember`):
`organisation.lower() in {org.lower() for org in user_orgs}`. -/
def verify_org_membership (pages : Nat → List String)
    (organisation : String) : Bool :=
  ((get_user_organisations pages).map str_lower).contains
    (str_lower organisation)

/-- The not-a-member error message: Python
`f"You are not a member of organisation '{organisation}'.\n"
 f"Your organisations: {', '.join(sorted(user_orgs))}"`. -/
def not_member_msg (organisation : String) (pages : Nat → List String) :
    String :=
  "You are not a member of organisation '" ++ organisation ++ "'.\n" ++
    "Your organisations: " ++
    String.intercalate ", "
      ((get_user_organisations pages).mergeSort (fun a b => a ≤ b))

/-- `auth.pat_login`: verify the token against the identity endpoint
(re-raising a rejection as the invalid-PAT error), verify organisation
membership (failing with the not-a-member error), then build, persist
and return the credentials.  Returns the Python result together with
the resulting on-disk credentials file. -/
def pat_login (gh : GithubEnv) (pat organisation : String)
    (disk : DiskFile) : Except PyExc Credentials × DiskFile :=
  match get_user_info gh with
  | .error (.valueError _) =>
      (.error (.valueError "Invalid GitHub Personal Access Token"), disk)
  | .error e => (.error e, disk)
  | .ok username =>
      if verify_org_membership gh.pages organisation then
        let creds : Credentials :=
          ⟨.str pat, .str organisation, .str username⟩
        (.ok creds, store_credentials creds disk)
      else
        (.error (.valueError (not_member_msg organisation gh.pages)), disk)

/-- `auth.switch_organisation`: load the stored credentials (failing
with the not-logged-in error when absent), re-verify membership in the
new organisation with the existing token (failing with the
not-a-member error), then persist and return the updated credentials.
Returns the Python result together with the resulting on-disk file. -/
def switch_organisation (gh : GithubEnv) (organisation : String)
    (disk : DiskFile) : Except PyExc Credentials × DiskFile :=
  match get_stored_credentials (fileContent disk) with
  | .error e => (.error e, disk)
  | .ok none =>
      (.error (.valueError
        "Not logged in. Run 'deployment-queue-cli login' first."), disk)
  | .ok (some creds) =>
      if verify_org_membership gh.pages organisation then
        let new_creds : Credentials :=
          ⟨creds.github_token, .str organisation, creds.username⟩
        (.ok new_creds, store_credentials new_creds disk)
      else
        (.error (.valueError (not_member_msg organisation gh.pages)), disk)

/-- One response of the token-exchange endpoint during Device Flow
polling: `access_token` models the presence of the `"access_token"`
key in the JSON body, `error` the value of the `"error"` key
(`token_data.get("error")`, `none` when absent). -/
structure TokenResponse where
  access_token : Option String
  error : Option String

/-- The classification the poll loop applies to a token response, in
source order: the `"access_token" in token_data` check first, then the
error-code comparisons. -/
inductive PollClass where
  | token (t : String) : PollClass
  | pending : PollClass
  | slowDown : PollClass
  | expiredTok : PollClass
  | denied : PollClass
  | other (e : Option String) : PollClass
deriving DecidableEq

/-- Classify a token response as the poll loop of
`auth.device_flow_login` does. -/
def classify (r : TokenResponse) : PollClass :=
  match r.access_token with
  | some t => .token t
  | none =>
      match r.error with
      | some "authorization_pending" => .pending
      | some "slow_down" => .slowDown
      | some "expired_token" => .expiredTok
      | some "access_denied" => .denied
      | e => .other e

/-- The message of the unexpected-error branch:
`f"Unexpected error: {error}"` (Python prints `None` for a missing
code). -/
def unexpected_msg (e : Option String) : String :=
  "Unexpected error: " ++ (match e with | some s => s | none => "None")

/-- The polling loop of `auth.device_flow_login` (step 3 of the flow),
instrumented with the poll intervals used.  Per iteration: while the
elapsed time since entering the loop is below `expiresIn`, sleep for
`interval` seconds (the model advances the clock by the sleep), issue
the token-exchange request for poll number `k` and classify it:
a token leads to identity fetch, membership verification and
persistence; `authorization_pending` continues unchanged; `slow_down`
continues with `interval + 5`; `expired_token`, `access_denied` and
unexpected codes raise.  When the deadline has passed, raise the
timeout error.  `fuel` bounds the recursion depth (a modelling
artifact); an exhausted fuel yields result `none`.  Returns the list
of intervals slept before each poll, the outcome, and the resulting
on-disk credentials file. -/
def device_poll_loop (resp : Nat → TokenResponse) (gh : GithubEnv)
    (organisation : String) (expiresIn : Nat) (disk : DiskFile) :
    Nat → Nat → Nat → Nat →
      List Nat × Option (Except PyExc Credentials) × DiskFile
  | 0, _, _, _ => ([], none, disk)
  | fuel + 1, k, elapsed, interval =>
      if elapsed < expiresIn then
        match classify (resp k) with
        | .token t =>
            match get_user_info gh with
            | .error e => ([interval], some (.error e), disk)
            | .ok username =>
                if verify_org_membership gh.pages organisation then
                  let creds : Credentials :=
                    ⟨.str t, .str organisation, .str username⟩
                  ([interval], some (.ok creds),
                    store_credentials creds disk)
                else
                  ([interval],
                    some (.error (.valueError
                      (not_member_msg organisation gh.pages))), disk)
        | .pending =>
            let r := device_poll_loop resp gh organisation expiresIn disk
              fuel (k + 1) (elapsed + interval) interval
            (interval :: r.1, r.2)
        | .slowDown =>
            let r := device_poll_loop resp gh organisation expiresIn disk
              fuel (k + 1) (elapsed + interval) (interval + 5)
            (interval :: r.1, r.2)
        | .expiredTok =>
            ([interval],
              some (.error (.timeoutError
                "Device code expired. Please try again.")), disk)
        | .denied =>
            ([interval],
              some (.error (.permissionError
                "Authorization denied by user.")), disk)
        | .other e =>
            ([interval],
              some (.error (.otherError (unexpected_msg e))), disk)
      else
        ([], some (.error (.timeoutError
          "Authorization timed out. Please try again.")), disk)

/-- The polling phase of `auth.device_flow_login`, starting from the
device-code response: `interval = device_data.get("interval", 5)` and
`expires_in = device_data.get("expires_in", 900)` supply the defaults,
polling starts at poll 0 with zero elapsed time. -/
def device_flow_poll (resp : Nat → TokenResponse) (gh : GithubEnv)
    (organisation : String) (intervalOpt expiresOpt : Option Nat)
    (disk : DiskFile) (fuel : Nat) :
    List Nat × Option (Except PyExc Credentials) × DiskFile :=
  device_poll_loop resp gh organisation (expiresOpt.getD 900) disk
    fuel 0 0 (intervalOpt.getD 5)

/-- The organisation field recorded in the on-disk credentials file,
when the file loads to a credentials value. -/
def stored_organisation (d : DiskFile) : Option Json :=
  match get_stored_credentials (fileContent d) with
  | .ok (some c) => some c.organisation
  | _ => none

/-- The backoff discipline over a trace of poll intervals starting at
poll number `k`: each interval is the previous one plus 5 when the
previous poll's response classified as `slow_down`, and unchanged
otherwise. -/
def IntervalStepOk (resp : Nat → TokenResponse) : Nat → List Nat → Prop
  | _, [] => True
  | _, [_] => True
  | k, a :: b :: tl =>
      b = a + (if classify (resp k) = .slowDown then 5 else 0) ∧
      IntervalStepOk resp (k + 1) (b :: tl)

/-! ## Helper lemmas -/

lemma lookup_eq_none_of_not_mem {l : List (String × Json)} {k : String}
    (h : ∀ v, (k, v) ∉ l) : l.lookup k = none := by
  induction l with
  | nil => rfl
  | cons a t ih =>
      rcases a with ⟨k', v'⟩
      have hk : k ≠ k' := by
        intro hkk
        exact h v' (by simp [hkk])
      rw [List.lookup]
      rw [show (k == k') = false from beq_eq_false_iff_ne.mpr hk]
      exact ih (fun v hv => h v (List.mem_cons_of_mem _ hv))

lemma not_mem_reverse {l : List (String × Json)} {k : String}
    (h : ∀ v, (k, v) ∉ l) : ∀ v, (k, v) ∉ l.reverse := by
  intro v hv
  exact h v (List.mem_reverse.mp hv)

/-! ## The claims -/

/-- C9: after every successful `store_credentials`, the credentials
file's permission mode grants no read or write access to group or
other (the low six permission bits are clear), and the owning user has
read and write access (the owner bits are `rw`, octal 6). -/
theorem store_credentials_owner_only (c : Credentials) (d : DiskFile) :
    ∃ m, fileMode (store_credentials c d) = some m ∧
      m % 64 = 0 ∧ m / 64 % 8 = 6 :=
  ⟨0o600, rfl, rfl, rfl⟩

/-- C8: storing credentials whose three fields are non-empty strings
and loading them back yields a value equal in all three fields. -/
theorem store_load_round_trip (t o u : String) (d : DiskFile)
    (ht : t ≠ "") (ho : o ≠ "") (hu : u ≠ "") :
    get_stored_credentials
        (fileContent (store_credentials ⟨.str t, .str o, .str u⟩ d)) =
      .ok (some ⟨.str t, .str o, .str u⟩) := rfl

/-- Witness for C8 at concrete non-empty field values. -/
theorem store_load_round_trip_witness :
    get_stored_credentials
        (fileContent (store_credentials
          ⟨.str "ghp_x", .str "acme", .str "alice"⟩ none)) =
      .ok (some ⟨.str "ghp_x", .str "acme", .str "alice"⟩) :=
  store_load_round_trip "ghp_x" "acme" "alice" none
    (by decide) (by decide) (by decide)

/-- C2: for every credentials-file content that is absent, malformed,
or a record (JSON object) missing one of the three required fields,
`get_stored_credentials` returns absent (`.ok none`) and raises no
exception. -/
theorem load_fail_soft (file : Option FileData)
    (h : file = none ∨ file = some .malformed ∨
      ∃ fields, file = some (.parsed (.obj fields)) ∧
        ((∀ v, ("github_token", v) ∉ fields) ∨
         (∀ v, ("organisation", v) ∉ fields) ∨
         (∀ v, ("username", v) ∉ fields))) :
    get_stored_credentials file = .ok none := by
  rcases h with rfl | rfl | ⟨fields, rfl, hmiss⟩
  · rfl
  · rfl
  · rcases hmiss with hmiss | hmiss | hmiss
    · have h1 : fields.reverse.lookup "github_token" = none :=
        lookup_eq_none_of_not_mem (not_mem_reverse hmiss)
      simp [get_stored_credentials, jsonGetItem, h1]
    · have h1 : fields.reverse.lookup "organisation" = none :=
        lookup_eq_none_of_not_mem (not_mem_reverse hmiss)
      simp only [get_stored_credentials, jsonGetItem, h1]
      cases fields.reverse.lookup "github_token" <;> simp
    · have h1 : fields.reverse.lookup "username" = none :=
        lookup_eq_none_of_not_mem (not_mem_reverse hmiss)
      simp only [get_stored_credentials, jsonGetItem, h1]
      cases fields.reverse.lookup "github_token" <;>
        cases fields.reverse.lookup "organisation" <;> simp

/-- Witness for C2: a record holding only a token loads to absent. -/
theorem load_fail_soft_witness :
    get_stored_credentials
        (some (.parsed (.obj [("github_token", .str "t")]))) = .ok none :=
  load_fail_soft _
    (Or.inr (Or.inr ⟨[("github_token", Json.str "t")], rfl,
      Or.inr (Or.inl (by intro v hv; simp at hv))⟩))

/-- C7: the membership check of `verify_org_membership` holds exactly
when the fetched organisation set contains an identifier equal to the
requested organisation up to letter case. -/
theorem membership_case_insensitive (pages : Nat → List String)
    (organisation : String) :
    verify_org_membership pages organisation = true ↔
      ∃ o ∈ get_user_organisations pages,
        str_lower o = str_lower organisation := by
  unfold verify_org_membership
  rw [List.elem_iff]
  simp [List.mem_map]

/-- C1: fixed three-tier credential-resolution precedence.  Tier 1:
with an environment token and organisation both set, resolution
returns the environment-derived credentials (username defaulting to
the fixed placeholder), for every state of every file — no file
influences the result.  Tier 2: otherwise, with an explicit
credentials-file path set, resolution returns exactly that file's load
result.  Tier 3: otherwise the default file is loaded.  Each tier's
result is a whole value of that tier, so partial data is never merged
across tiers. -/
theorem resolution_precedence (s : Settings)
    (fileAt : String → Option FileData) (defaultFile : Option FileData) :
    (∀ t o, s.github_token = some t → s.organisation = some o →
      resolve_credentials s fileAt defaultFile =
        .ok (some ⟨.str t, .str o, .str (s.username.getD "env-user")⟩)) ∧
    (∀ p, s.github_token = none ∨ s.organisation = none →
      s.credentials_file = some p →
      resolve_credentials s fileAt defaultFile =
        get_stored_credentials (fileAt p)) ∧
    (s.github_token = none ∨ s.organisation = none →
      s.credentials_file = none →
      resolve_credentials s fileAt defaultFile =
        get_stored_credentials defaultFile) := by
  refine ⟨?_, ?_, ?_⟩
  · intro t o ht ho
    simp [resolve_credentials, get_credentials_from_env, ht, ho]
  · intro p h hp
    rcases h with h | h <;>
      cases hg : s.github_token <;> cases ho : s.organisation <;>
        simp_all [resolve_credentials, get_credentials_from_env]
  · intro h hp
    rcases h with h | h <;>
      cases hg : s.github_token <;> cases ho : s.organisation <;>
        simp_all [resolve_credentials, get_credentials_from_env]

/-- Witness for C1, exercising tier 1 against differently-populated
files: the environment value wins. -/
theorem resolution_precedence_witness :
    resolve_credentials
        ⟨"https://api", none, some "ghp_env", some "env-org", none,
          some "/tmp/a"⟩
        (fun _ => some (.parsed (.obj [("github_token", .str "A"),
          ("organisation", .str "B"), ("username", .str "C")])))
        (some (.parsed (.obj [("github_token", .str "D"),
          ("organisation", .str "E"), ("username", .str "F")]))) =
      .ok (some ⟨.str "ghp_env", .str "env-org", .str "env-user"⟩) :=
  (resolution_precedence _ _ _).1 "ghp_env" "env-org" rfl rfl

/-- C5: switching to an organisation of which the stored token is not
a member fails with the not-a-member error enumerating the caller's
actual organisations, and leaves the on-disk credentials unchanged:
re-loading after the failed switch yields the previously stored
value. -/
theorem switch_not_member_preserves_disk (gh : GithubEnv) (org : String)
    (disk : DiskFile) (c : Credentials)
    (hload : get_stored_credentials (fileContent disk) = .ok (some c))
    (hmem : verify_org_membership gh.pages org = false) :
    (switch_organisation gh org disk).1 =
      .error (.valueError (not_member_msg org gh.pages)) ∧
    (switch_organisation gh org disk).2 = disk ∧
    get_stored_credentials
        (fileContent (switch_organisation gh org disk).2) =
      .ok (some c) := by
  unfold switch_organisation
  rw [hload]
  simp [hmem, hload]

/-- Witness for C5: a populated credentials file, a provider set with
no organisations, a failed switch. -/
theorem switch_not_member_preserves_disk_witness :
    (switch_organisation ⟨"alice", true, fun _ => []⟩ "acme"
        (some (.parsed (.obj [("github_token", .str "t"),
          ("organisation", .str "o"), ("username", .str "u")]), 0o600))).1 =
      .error (.valueError
        (not_member_msg "acme" (fun _ => ([] : List String)))) ∧
    (switch_organisation ⟨"alice", true, fun _ => []⟩ "acme"
        (some (.parsed (.obj [("github_token", .str "t"),
          ("organisation", .str "o"), ("username", .str "u")]), 0o600))).2 =
      some (.parsed (.obj [("github_token", .str "t"),
        ("organisation", .str "o"), ("username", .str "u")]), 0o600) ∧
    get_stored_credentials (fileContent
        (switch_organisation ⟨"alice", true, fun _ => []⟩ "acme"
          (some (.parsed (.obj [("github_token", .str "t"),
            ("organisation", .str "o"), ("username", .str "u")]),
            0o600))).2) =
      .ok (some ⟨.str "t", .str "o", .str "u"⟩) :=
  switch_not_member_preserves_disk ⟨"alice", true, fun _ => []⟩ "acme"
    (some (.parsed (.obj [("github_token", .str "t"),
      ("organisation", .str "o"), ("username", .str "u")]), 0o600))
    ⟨.str "t", .str "o", .str "u"⟩ rfl
    (by simp [verify_org_membership, get_user_organisations,
      get_user_organisations_traced, get_user_organisations_aux])

lemma orgs_aux_fetched (pages : Nat → List String) :
    ∀ (n page : Nat), page + n = 10 → 1 ≤ page →
      ∀ (acc : List String) (pre : List Nat), ∃ k, page ≤ k ∧ k ≤ 10 ∧
        (get_user_organisations_aux pages page acc pre).2 =
          pre ++ List.range' page (k + 1 - page) ∧
        (∀ i, page ≤ i → i < k → pages i ≠ []) ∧
        (k = 10 ∨ pages k = []) := by
  intro n
  induction n with
  | zero =>
      intro page hpage _ acc pre
      have hp : page = 10 := by omega
      subst hp
      rw [get_user_organisations_aux]
      by_cases he : pages 10 = []
      · refine ⟨10, le_refl _, le_refl _, ?_, ?_, Or.inr he⟩
        · simp [he]
        · intro i h1 h2; omega
      · refine ⟨10, le_refl _, le_refl _, ?_, ?_, Or.inl rfl⟩
        · simp [he]
        · intro i h1 h2; omega
  | succ n ih =>
      intro page hpage h1 acc pre
      rw [get_user_organisations_aux]
      by_cases he : pages page = []
      · refine ⟨page, le_refl _, by omega, ?_, ?_, Or.inr he⟩
        · simp [he]
        · intro i hi1 hi2; omega
      · have hlt : ¬ page + 1 > 10 := by omega
        obtain ⟨k, hk1, hk2, hfetch, hne, hlast⟩ :=
          ih (page + 1) (by omega) (by omega)
            (acc ++ (pages page).filter (fun o => ¬ acc.contains o))
            (pre ++ [page])
        refine ⟨k, by omega, hk2, ?_, ?_, hlast⟩
        · rw [if_neg he, dif_neg hlt, hfetch]
          have hrange : List.range' page (k + 1 - page) =
              page :: List.range' (page + 1) (k + 1 - (page + 1)) := by
            have h2 : k + 1 - page = (k + 1 - (page + 1)) + 1 := by omega
            rw [h2, List.range'_succ]
          rw [hrange]
          simp
        · intro i hi1 hi2
          rcases Nat.eq_or_lt_of_le hi1 with hi | hi
          · rw [← hi]; exact he
          · exact hne i (by omega) hi2

/-- C6: for every paginated membership response — including one that
never serves an empty page — the organisation listing fetches pages
`1, 2, …, k` in increasing order for some `k ≤ 10`, every page before
the last fetched one was non-empty (it stops at the first empty page),
and it never fetches more than 10 pages. -/
theorem list_organisations_page_bound (pages : Nat → List String) :
    ∃ k, 1 ≤ k ∧ k ≤ 10 ∧
      (get_user_organisations_traced pages).2 = List.range' 1 k ∧
      (∀ i, 1 ≤ i → i < k → pages i ≠ []) ∧
      (k = 10 ∨ pages k = []) := by
  obtain ⟨k, hk1, hk2, hfetch, hne, hlast⟩ :=
    orgs_aux_fetched pages 9 1 (by omega) (by omega) [] []
  refine ⟨k, hk1, hk2, ?_, hne, hlast⟩
  rw [get_user_organisations_traced, hfetch]
  simp [Nat.add_sub_cancel]

lemma poll_pending_times_out (resp : Nat → TokenResponse) (gh : GithubEnv)
    (org : String) (expiresIn : Nat) (disk : DiskFile)
    (hp : ∀ j, classify (resp j) = .pending) :
    ∀ (fuel k elapsed interval : Nat), 1 ≤ interval →
      expiresIn - elapsed + 1 ≤ fuel → elapsed < expiresIn + interval →
      ∃ tr, device_poll_loop resp gh org expiresIn disk
          fuel k elapsed interval =
        (tr, some (.error (.timeoutError
          "Authorization timed out. Please try again.")), disk) ∧
        elapsed + tr.sum < expiresIn + interval := by
  intro fuel
  induction fuel with
  | zero => intro k elapsed interval _ hf _; omega
  | succ fuel ih =>
      intro k elapsed interval hi hf he
      rw [device_poll_loop]
      by_cases hlt : elapsed < expiresIn
      · rw [if_pos hlt, hp k]
        obtain ⟨tr, heq, hsum⟩ :=
          ih (k + 1) (elapsed + interval) interval hi (by omega) (by omega)
        refine ⟨interval :: tr, ?_, ?_⟩
        · simp only [heq]
        · simp only [List.sum_cons]; omega
      · rw [if_neg hlt]
        exact ⟨[], rfl, by simp; omega⟩

/-- C4: the poll loop independently enforces the `expires_in`
wall-clock deadline: for every poll-response sequence consisting only
of `authorization_pending` and every positive poll interval, the loop
terminates with the timed-out (`EXPIRED`) outcome, the total time
slept stays below `expires_in` plus one poll interval, and nothing is
persisted. -/
theorem device_flow_deadline (resp : Nat → TokenResponse)
    (gh : GithubEnv) (org : String) (disk : DiskFile)
    (expiresIn interval : Nat) (hi : 1 ≤ interval)
    (hp : ∀ j, classify (resp j) = .pending) :
    (device_flow_poll resp gh org (some interval) (some expiresIn) disk
        (expiresIn + 1)).2.1 =
      some (.error (.timeoutError
        "Authorization timed out. Please try again.")) ∧
    (device_flow_poll resp gh org (some interval) (some expiresIn) disk
        (expiresIn + 1)).1.sum < expiresIn + interval ∧
    (device_flow_poll resp gh org (some interval) (some expiresIn) disk
        (expiresIn + 1)).2.2 = disk := by
  obtain ⟨tr, heq, hsum⟩ :=
    poll_pending_times_out resp gh org expiresIn disk hp
      (expiresIn + 1) 0 0 interval hi (by omega) (by omega)
  unfold device_flow_poll
  simp only [Option.getD_some] at *
  rw [heq]
  exact ⟨rfl, by simpa using hsum, rfl⟩

/-- Witness for C4: `expires_in = 1`, a server that always answers
`authorization_pending`. -/
theorem device_flow_deadline_witness :
    (device_flow_poll (fun _ => ⟨none, some "authorization_pending"⟩)
        ⟨"alice", true, fun _ => []⟩ "acme" (some 5) (some 1) none 2).2.1 =
      some (.error (.timeoutError
        "Authorization timed out. Please try again.")) ∧
    (device_flow_poll (fun _ => ⟨none, some "authorization_pending"⟩)
        ⟨"alice", true, fun _ => []⟩ "acme" (some 5) (some 1) none 2).1.sum <
      1 + 5 ∧
    (device_flow_poll (fun _ => ⟨none, some "authorization_pending"⟩)
        ⟨"alice", true, fun _ => []⟩ "acme" (some 5) (some 1) none 2).2.2 =
      none :=
  device_flow_deadline (fun _ => ⟨none, some "authorization_pending"⟩)
    ⟨"alice", true, fun _ => []⟩ "acme" none 1 5 (by decide) (fun _ => rfl)

lemma poll_granted_org (resp : Nat → TokenResponse) (gh : GithubEnv)
    (org : String) (expiresIn : Nat) (disk : DiskFile) :
    ∀ (fuel k elapsed interval : Nat) (c : Credentials) (tr : List Nat)
      (d' : DiskFile),
      device_poll_loop resp gh org expiresIn disk fuel k elapsed interval =
        (tr, some (.ok c), d') →
      c.organisation = .str org ∧
      stored_organisation d' = some (.str org) := by
  intro fuel
  induction fuel with
  | zero =>
      intro k elapsed interval c tr d' h
      rw [device_poll_loop] at h
      simp at h
  | succ fuel ih =>
      intro k elapsed interval c tr d' h
      rw [device_poll_loop] at h
      by_cases hlt : elapsed < expiresIn
      · rw [if_pos hlt] at h
        cases hc : classify (resp k) with
        | token t =>
            rw [hc] at h
            dsimp only at h
            cases hu : get_user_info gh with
            | error e => rw [hu] at h; simp at h
            | ok username =>
                rw [hu] at h
                dsimp only at h
                by_cases hm : verify_org_membership gh.pages org
                · rw [if_pos hm] at h
                  simp only [Prod.mk.injEq, Option.some.injEq,
                    Except.ok.injEq] at h
                  obtain ⟨-, hcc, hd⟩ := h
                  subst hcc; subst hd
                  exact ⟨rfl, rfl⟩
                · rw [if_neg hm] at h
                  simp at h
        | pending =>
            rw [hc] at h
            dsimp only at h
            have h2 := congrArg Prod.snd h
            dsimp only at h2
            exact ih (k + 1) (elapsed + interval) interval c _ d'
              (by rw [← h2])
        | slowDown =>
            rw [hc] at h
            dsimp only at h
            have h2 := congrArg Prod.snd h
            dsimp only at h2
            exact ih (k + 1) (elapsed + interval) (interval + 5) c _ d'
              (by rw [← h2])
        | expiredTok => rw [hc] at h; simp at h
        | denied => rw [hc] at h; simp at h
        | other e => rw [hc] at h; simp at h
      · rw [if_neg hlt] at h
        simp at h

/-- C10: in PAT login, Device Flow login and organisation switch, the
organisation field of the returned credentials and of the persisted
file is the caller-supplied organisation string verbatim; the
provider's casing of the matched login is never substituted. -/
theorem organisation_stored_verbatim (gh : GithubEnv)
    (pat org : String) (disk : DiskFile) :
    (∀ c d', pat_login gh pat org disk = (.ok c, d') →
      c.organisation = .str org ∧
      stored_organisation d' = some (.str org)) ∧
    (∀ (resp : Nat → TokenResponse) (expiresIn fuel k elapsed interval : Nat)
      (c : Credentials) (tr : List Nat) (d' : DiskFile),
      device_poll_loop resp gh org expiresIn disk fuel k elapsed interval =
        (tr, some (.ok c), d') →
      c.organisation = .str org ∧
      stored_organisation d' = some (.str org)) ∧
    (∀ c d', switch_organisation gh org disk = (.ok c, d') →
      c.organisation = .str org ∧
      stored_organisation d' = some (.str org)) := by
  refine ⟨?_, ?_, ?_⟩
  · intro c d' h
    unfold pat_login at h
    cases hu : get_user_info gh with
    | error e =>
        rw [hu] at h
        cases e <;> simp at h
    | ok username =>
        rw [hu] at h
        dsimp only at h
        by_cases hm : verify_org_membership gh.pages org
        · rw [if_pos hm] at h
          simp only [Prod.mk.injEq, Except.ok.injEq] at h
          obtain ⟨hcc, hd⟩ := h
          subst hcc; subst hd
          exact ⟨rfl, rfl⟩
        · rw [if_neg hm] at h
          simp at h
  · intro resp expiresIn fuel k elapsed interval c tr d' h
    exact poll_granted_org resp gh org expiresIn disk
      fuel k elapsed interval c tr d' h
  · intro c d' h
    unfold switch_organisation at h
    cases hl : get_stored_credentials (fileContent disk) with
    | error e => rw [hl] at h; simp at h
    | ok oc =>
        rw [hl] at h
        cases oc with
        | none => simp at h
        | some creds =>
            dsimp only at h
            by_cases hm : verify_org_membership gh.pages org
            · rw [if_pos hm] at h
              simp only [Prod.mk.injEq, Except.ok.injEq] at h
              obtain ⟨hcc, hd⟩ := h
              subst hcc; subst hd
              exact ⟨rfl, rfl⟩
            · rw [if_neg hm] at h
              simp at h

/-- Witness for C10: a PAT login where membership was established
against a differently-cased provider login (`"test-org"` serves the
requested `"Test-Org"`); the stored organisation keeps the caller's
casing. -/
theorem organisation_stored_verbatim_witness :
    Credentials.organisation
        ⟨.str "ghp_x", .str "Test-Org", .str "alice"⟩ = .str "Test-Org" ∧
    stored_organisation
        (store_credentials
          ⟨.str "ghp_x", .str "Test-Org", .str "alice"⟩ none) =
      some (.str "Test-Org") := by
  have h := (organisation_stored_verbatim
      ⟨"alice", true, fun p => if p = 1 then ["test-org"] else []⟩
      "ghp_x" "Test-Org" none).1
  exact h _ _ (by
    simp only [pat_login, get_user_info, if_pos]
    rw [if_pos (by
      simp [verify_org_membership, get_user_organisations,
        get_user_organisations_traced, get_user_organisations_aux]
      decide)])

lemma poll_trace_head (resp : Nat → TokenResponse) (gh : GithubEnv)
    (org : String) (expiresIn : Nat) (disk : DiskFile) :
    ∀ (fuel k elapsed interval : Nat),
      (device_poll_loop resp gh org expiresIn disk
          fuel k elapsed interval).1 = [] ∨
      ∃ tl, (device_poll_loop resp gh org expiresIn disk
          fuel k elapsed interval).1 = interval :: tl := by
  intro fuel k elapsed interval
  cases fuel with
  | zero => left; rfl
  | succ fuel =>
      rw [device_poll_loop]
      by_cases hlt : elapsed < expiresIn
      · rw [if_pos hlt]
        cases hc : classify (resp k) with
        | token t =>
            dsimp only
            cases hu : get_user_info gh with
            | error e => right; exact ⟨[], rfl⟩
            | ok username =>
                dsimp only
                by_cases hm : verify_org_membership gh.pages org
                · rw [if_pos hm]; right; exact ⟨[], rfl⟩
                · rw [if_neg hm]; right; exact ⟨[], rfl⟩
        | pending => right; exact ⟨_, rfl⟩
        | slowDown => right; exact ⟨_, rfl⟩
        | expiredTok => right; exact ⟨[], rfl⟩
        | denied => right; exact ⟨[], rfl⟩
        | other e => right; exact ⟨[], rfl⟩
      · rw [if_neg hlt]; left; rfl

lemma poll_trace_stepOk (resp : Nat → TokenResponse) (gh : GithubEnv)
    (org : String) (expiresIn : Nat) (disk : DiskFile) :
    ∀ (fuel k elapsed interval : Nat),
      IntervalStepOk resp k
        (device_poll_loop resp gh org expiresIn disk
          fuel k elapsed interval).1 := by
  intro fuel
  induction fuel with
  | zero => intro k elapsed interval; trivial
  | succ fuel ih =>
      intro k elapsed interval
      rw [device_poll_loop]
      by_cases hlt : elapsed < expiresIn
      · rw [if_pos hlt]
        cases hc : classify (resp k) with
        | token t =>
            dsimp only
            cases hu : get_user_info gh with
            | error e => trivial
            | ok username =>
                dsimp only
                by_cases hm : verify_org_membership gh.pages org
                · rw [if_pos hm]; trivial
                · rw [if_neg hm]; trivial
        | pending =>
            dsimp only
            rcases poll_trace_head resp gh org expiresIn disk
                fuel (k + 1) (elapsed + interval) interval with
              hnil | ⟨tl, htl⟩
            · rw [hnil]; trivial
            · rw [htl]
              refine ⟨by rw [hc]; simp, ?_⟩
              have h2 := ih (k + 1) (elapsed + interval) interval
              rw [htl] at h2
              exact h2
        | slowDown =>
            dsimp only
            rcases poll_trace_head resp gh org expiresIn disk
                fuel (k + 1) (elapsed + interval) (interval + 5) with
              hnil | ⟨tl, htl⟩
            · rw [hnil]; trivial
            · rw [htl]
              refine ⟨by rw [hc]; simp, ?_⟩
              have h2 := ih (k + 1) (elapsed + interval) (interval + 5)
              rw [htl] at h2
              exact h2
        | expiredTok => trivial
        | denied => trivial
        | other e => trivial
      · rw [if_neg hlt]; trivial

lemma chain_le_of_stepOk (resp : Nat → TokenResponse) :
    ∀ (l : List Nat) (k : Nat), IntervalStepOk resp k l →
      List.Chain' (· ≤ ·) l := by
  intro l
  induction l with
  | nil => intro k _; exact List.chain'_nil
  | cons a tl ih =>
      intro k h
      cases tl with
      | nil => exact List.chain'_singleton a
      | cons b tl2 =>
          obtain ⟨hab, htail⟩ := h
          exact List.chain'_cons.mpr
            ⟨by rw [hab]; exact Nat.le_add_right a _, ih (k + 1) htail⟩

/-- C3: within one Device Flow invocation, the trace of poll intervals
obeys the backoff discipline — after a `slow_down` response the next
poll's interval is the previous one plus exactly 5, after any other
response it is unchanged — so the interval never decreases once
raised (the trace is monotonically non-decreasing); and for the
poll-response sequence `[authorization_pending, slow_down,
access_token]` (with defaulted interval 5 and expiry 900) the engine
sleeps `[5, 5, 10]` — one increase — and terminates granted with the
token of the final response, persisting the credentials. -/
theorem slow_down_backoff (resp : Nat → TokenResponse) (gh : GithubEnv)
    (organisation : String) (expiresIn : Nat) (disk : DiskFile) :
    (∀ fuel k elapsed interval,
      IntervalStepOk resp k
        (device_poll_loop resp gh organisation expiresIn disk
          fuel k elapsed interval).1 ∧
      List.Chain' (· ≤ ·)
        (device_poll_loop resp gh organisation expiresIn disk
          fuel k elapsed interval).1) ∧
    (∀ t, resp 0 = ⟨none, some "authorization_pending"⟩ →
      resp 1 = ⟨none, some "slow_down"⟩ →
      resp 2 = ⟨some t, none⟩ →
      gh.tokenValid = true →
      verify_org_membership gh.pages organisation = true →
      device_flow_poll resp gh organisation none none disk 3 =
        ([5, 5, 10],
         some (.ok ⟨.str t, .str organisation, .str gh.login⟩),
         store_credentials
           ⟨.str t, .str organisation, .str gh.login⟩ disk)) := by
  constructor
  · intro fuel k elapsed interval
    have hstep := poll_trace_stepOk resp gh organisation expiresIn disk
      fuel k elapsed interval
    exact ⟨hstep, chain_le_of_stepOk resp _ k hstep⟩
  · intro t h0 h1 h2 hv hm
    have hc0 : classify (resp 0) = .pending := by rw [h0]; rfl
    have hc1 : classify (resp 1) = .slowDown := by rw [h1]; rfl
    have hc2 : classify (resp 2) = .token t := by rw [h2]; rfl
    simp [device_flow_poll, device_poll_loop, hc0, hc1, hc2,
      get_user_info, hv, hm]

/-- Witness for C3: the scenario played against a provider that lists
the requested organisation on its first membership page. -/
theorem slow_down_backoff_witness :
    device_flow_poll
        (fun n => if n = 0 then ⟨none, some "authorization_pending"⟩
          else if n = 1 then ⟨none, some "slow_down"⟩
          else ⟨some "tok", none⟩)
        ⟨"alice", true, fun p => if p = 1 then ["acme"] else []⟩
        "acme" none none none 3 =
      ([5, 5, 10],
       some (.ok ⟨.str "tok", .str "acme", .str "alice"⟩),
       store_credentials ⟨.str "tok", .str "acme", .str "alice"⟩ none) :=
  (slow_down_backoff
      (fun n => if n = 0 then ⟨none, some "authorization_pending"⟩
        else if n = 1 then ⟨none, some "slow_down"⟩
        else ⟨some "tok", none⟩)
      ⟨"alice", true, fun p => if p = 1 then ["acme"] else []⟩
      "acme" 0 none).2 "tok" rfl rfl rfl rfl
    (by simp [verify_org_membership, get_user_organisations,
      get_user_organisations_traced, get_user_organisations_aux])
